import Mathlib

/-!
# Verification of the weaboo-api service

Shallow embedding of the weaboo-api content-aggregation and media-archival
service, covering:

* the percent-encoding round trip between `buildStreamUrl` (services/cfWorkers)
  and the Cloudflare worker's `GET /proxy` decoder (`cloudflare-worker/worker.js`),
* the header normalisation of `proxyStream` and the HLS playlist rewriter
  `proxyM3u8` in the Cloudflare worker,
* the Jikan acceptance gate of `runDiscovery` (services/resolver),
* the SQL stored primitives `enqueue_video` and `upsert_anime_mapping`
  (docs/migration.sql),
* `hammingDistance` (services/image.ts),
* the per-server enrichment decision of `enrichWithStreamUrls`
  (services/streaming.ts) together with `buildStreamUrl`,
* the `POST /api/v1/streaming/invalidate` route handler (index.ts).

Strings handled by URL machinery are modelled as their byte sequences
(`List Nat`, each entry `< 256`); the URLs this system builds and decodes are
ASCII, where the UTF-8 bytes coincide with the character codes.  Text handled
by string functions is modelled as `List Char`.
-/

namespace Weaboo

/-- Byte view of an ASCII string (code points coincide with UTF-8 bytes). -/
def strBytes (s : String) : List Nat := s.data.map Char.toNat

/-- The unreserved set of JavaScript `encodeURIComponent`:
`A–Z a–z 0–9 - _ . ! ~ * ' ( )`.  Every other byte is percent-escaped. -/
def isUnreservedByte (b : Nat) : Bool :=
  (65 ≤ b && b ≤ 90) || (97 ≤ b && b ≤ 122) || (48 ≤ b && b ≤ 57) ||
  b == 45 || b == 95 || b == 46 || b == 33 || b == 126 ||
  b == 42 || b == 39 || b == 40 || b == 41

/-- Upper-case hex digit for a nibble, as `encodeURIComponent` emits. -/
def toHexDigitUpper (n : Nat) : Nat := if n < 10 then 48 + n else 55 + n

/-- Value of a hex digit byte (`0-9`, `A-F`, `a-f`), or `none`. -/
def hexDigitVal (b : Nat) : Option Nat :=
  if 48 ≤ b ∧ b ≤ 57 then some (b - 48)
  else if 65 ≤ b ∧ b ≤ 70 then some (b - 55)
  else if 97 ≤ b ∧ b ≤ 102 then some (b - 87)
  else none

/-- Encoding of one byte by `encodeURIComponent`: unreserved bytes pass, the
rest become `%HH` with upper-case hex. -/
def encodeByte (b : Nat) : List Nat :=
  if isUnreservedByte b then [b] else [37, toHexDigitUpper (b / 16), toHexDigitUpper (b % 16)]

/-- JavaScript `encodeURIComponent` over the byte view of a string. -/
def encodeURIComponentBytes : List Nat → List Nat
  | [] => []
  | b :: rest => encodeByte b ++ encodeURIComponentBytes rest

/-- The `application/x-www-form-urlencoded` value decode used by
`URLSearchParams.get`: `+` becomes space, valid `%HH` triples are decoded,
malformed sequences are kept literally. -/
def formDecode : List Nat → List Nat
  | [] => []
  | b :: rest =>
    if b = 43 then 32 :: formDecode rest
    else if b = 37 then
      match rest with
      | h :: l :: rest2 =>
        match hexDigitVal h, hexDigitVal l with
        | some hv, some lv => (16 * hv + lv) :: formDecode rest2
        | _, _ => 37 :: formDecode (h :: l :: rest2)
      | [h] => 37 :: formDecode [h]
      | [] => [37]
    else b :: formDecode rest
termination_by l => l.length
decreasing_by all_goals (simp_wf <;> omega)

/-- JavaScript `decodeURIComponent` over bytes: every `%HH` is decoded, a `%`
not followed by two hex digits raises `URIError` (modelled as `none`).
(The additional UTF-8 re-validation JavaScript performs on decoded multi-byte
sequences is not modelled; no theorem below depends on it.) -/
def decodeURIComponentBytes : List Nat → Option (List Nat)
  | [] => some []
  | b :: rest =>
    if b = 37 then
      match rest with
      | h :: l :: rest2 =>
        match hexDigitVal h, hexDigitVal l with
        | some hv, some lv => (decodeURIComponentBytes rest2).map (fun t => (16 * hv + lv) :: t)
        | _, _ => none
      | _ => none
    else (decodeURIComponentBytes rest).map (fun t => b :: t)
termination_by l => l.length
decreasing_by all_goals (simp_wf <;> omega)

/-- Split a byte string on a separator byte (used for the `&` split of a query
string by `URLSearchParams`). -/
def splitOnByte (sep : Nat) : List Nat → List (List Nat)
  | [] => [[]]
  | b :: rest =>
    if b = sep then [] :: splitOnByte sep rest
    else
      match splitOnByte sep rest with
      | h :: t => (b :: h) :: t
      | [] => [[b]]

/-- Lookup of `URLSearchParams`: split the query on `&`, skip empty pieces, split
each piece at the first `=`, form-decode name and value, return the first
value whose decoded name matches. -/
def getQueryParam (query : List Nat) (name : List Nat) : Option (List Nat) :=
  (((splitOnByte 38 query).filter (fun p => ¬p = [])).findSome? fun piece =>
    let rawName := piece.takeWhile (fun b => ¬b = 61)
    let rawValue := (piece.dropWhile (fun b => ¬b = 61)).drop 1
    if formDecode rawName = name then some (formDecode rawValue) else none)

/-- The bytes of `"url"`. -/
def urlParamName : List Nat := strBytes "url"

/-- The query string the API emits inside
`buildStreamUrl`: `url=` followed by `encodeURIComponent` of the target. -/
def emitProxyQuery (u : List Nat) : List Nat :=
  urlParamName ++ [61] ++ encodeURIComponentBytes u

/-- What `GET /proxy` does to its query string to recover the target URL:
`url.searchParams.get('url')` (a form-urlencoded decode) followed by an
explicit `decodeURIComponent` (worker.js line 281). -/
def proxyDecodeUrlParam (query : List Nat) : Option (List Nat) :=
  (getQueryParam query urlParamName).bind decodeURIComponentBytes

/-! ## Generic text helpers (JavaScript string methods on `List Char`) -/

/-- Suffix of `l` after the first occurrence of `pat`, or `none` when `pat`
does not occur.  `(afterSubstr pat l).isSome` is `String.prototype.includes`. -/
def afterSubstr {α : Type} [DecidableEq α] (pat : List α) : List α → Option (List α)
  | [] => if pat = [] then some [] else none
  | a :: rest =>
    if pat <+: a :: rest then some ((a :: rest).drop pat.length)
    else afterSubstr pat rest

/-- JavaScript `String.prototype.includes`. -/
def containsSub {α : Type} [DecidableEq α] (pat l : List α) : Bool :=
  (afterSubstr pat l).isSome

/-- Hostname of a hierarchical `scheme://…` URL as `new URL(u).hostname`
computes it: the authority runs to the first `/`, `?` or `#`; credentials
before `@` and a `:port` suffix are stripped.  `none` models the `URIError`
of an unparsable URL (the resolver catches it). -/
def hostnameOf (u : List Char) : Option (List Char) :=
  match afterSubstr "://".data u with
  | none => none
  | some rest =>
    let hostport := rest.takeWhile fun c => !(c == '/' || c == '?' || c == '#')
    let afterCred :=
      match afterSubstr ['@'] hostport with
      | some r => r
      | none => hostport
    some (afterCred.takeWhile fun c => !(c == ':'))

/-- Whitespace recognised by `String.prototype.trim` (ASCII part). -/
def jsIsSpace (c : Char) : Bool :=
  c == ' ' || c == '\t' || c == '\n' || c == '\r' || c == '\x0b' || c == '\x0c'

/-- JavaScript `String.prototype.trim`. -/
def jsTrim (l : List Char) : List Char :=
  ((l.dropWhile jsIsSpace).reverse.dropWhile jsIsSpace).reverse

/-- Character-level `encodeURIComponent` (the URLs this service encodes are
ASCII, where char codes and UTF-8 bytes coincide). -/
def encodeURIComponentL (l : List Char) : List Char :=
  (encodeURIComponentBytes (l.map Char.toNat)).map Char.ofNat

/-- String-level `encodeURIComponent`. -/
def encodeURIComponentStr (s : String) : String :=
  String.mk (encodeURIComponentL s.data)

/-! ## Stream URL construction — `buildStreamUrl` (services/cfWorkers.ts)

`buildStreamUrl(resolvedUrl)` returns `null` when `CF_WORKERS_BASE_URL` is the
empty string, else `base.replace(/\/$/,'') + '/proxy?url=' +
encodeURIComponent(resolvedUrl)`.  The configured base URL is passed
explicitly here. -/

/-- JavaScript `base.replace(/\/$/, '')`. -/
def stripTrailingSlash (s : String) : String :=
  if s.endsWith "/" then s.dropRight 1 else s

/-- Embedding of `buildStreamUrl` with the `CF_WORKERS_BASE_URL` constant as
first argument. -/
def buildStreamUrl (base : String) (resolvedUrl : String) : Option String :=
  if base = "" then none
  else some (stripTrailingSlash base ++ "/proxy?url=" ++ encodeURIComponentStr resolvedUrl)

/-! ## Stream proxy headers — `proxyStream` (cloudflare-worker/worker.js) -/

/-- Headers of the upstream response observed by `proxyStream`, each as
`headers.get(...)` delivers it (`none` = header absent). -/
structure UpstreamResponse where
  status : Nat
  contentType : Option (List Char)
  contentLength : Option (List Char)
  contentRange : Option (List Char)
  acceptRanges : Option (List Char)
  contentDisposition : Option (List Char)
deriving DecidableEq, Repr

/-- Headers `proxyStream` sets on the response to the client (CORS headers,
identical in both branches, are omitted). -/
structure ProxyHeaders where
  contentType : Option (List Char)
  contentLength : Option (List Char)
  contentRange : Option (List Char)
  acceptRanges : Option (List Char)
  contentDisposition : Option (List Char)
deriving DecidableEq, Repr

/-- Predicate `isHuggingFaceUrl` of worker.js: hostname equals
`huggingface.co` or ends with `.huggingface.co`; parse failure is `false`. -/
def isHuggingFaceUrl (u : List Char) : Bool :=
  match hostnameOf u with
  | some h => decide (h = "huggingface.co".data) || decide (".huggingface.co".data <:+ h)
  | none => false

/-- Condition under which the non-HuggingFace branch of `proxyStream` serves
`application/vnd.apple.mpegurl`: the upstream content type contains
`mpegurl` or `x-mpegurl`, or the URL contains `.m3u8` (a substring test,
`finalUrl.includes('.m3u8')`). -/
def hlsIndicated (targetUrl : List Char) (up : UpstreamResponse) : Bool :=
  let ct := up.contentType.getD []
  containsSub "mpegurl".data ct || containsSub "x-mpegurl".data ct ||
  containsSub ".m3u8".data targetUrl

/-- Header computation of `proxyStream` (worker.js lines 77–189).  The
HuggingFace branch does its own two-hop resolution and builds headers at
lines 116–130; the generic branch at lines 148–183.  For non-HuggingFace
URLs `finalUrl` equals `targetUrl` (it is only reassigned inside the
HuggingFace branch). -/
def proxyStreamHeaders (targetUrl : List Char) (up : UpstreamResponse) : ProxyHeaders :=
  if isHuggingFaceUrl targetUrl then
    { contentType := some "video/mp4".data
      contentLength := up.contentLength
      contentRange := up.contentRange
      acceptRanges := some (up.acceptRanges.getD "bytes".data)
      contentDisposition := some "inline".data }
  else
    { contentType := some (if hlsIndicated targetUrl up then
        "application/vnd.apple.mpegurl".data else "video/mp4".data)
      contentLength := up.contentLength
      contentRange := up.contentRange
      acceptRanges := up.acceptRanges
      contentDisposition := some "inline".data }

/-! ## HLS playlist rewriting — `proxyM3u8` (worker.js lines 198–243)

The source splits the playlist text on `'\n'`, maps each line, and re-joins
with `'\n'`; a playlist text is therefore modelled as its list of lines.
`origin` is `new URL(targetUrl).origin` and `basePath` is the origin plus the
pathname with its last segment removed, exactly the two values the source
computes before the loop. -/

/-- Absolutisation of one trimmed URI line as the source performs it:
lines starting with `http` are taken as already absolute, lines starting
with `/` are origin-relative, everything else is relative to `basePath`. -/
def absolutiseUri (origin basePath trimmed : List Char) : List Char :=
  if "http".data.isPrefixOf trimmed then trimmed
  else if "/".data.isPrefixOf trimmed then origin ++ trimmed
  else basePath ++ "/".data ++ trimmed

/-- Per-line rewrite of `proxyM3u8`: blank and comment lines (after `trim`)
are returned untouched, every other line becomes
`workerBase + '/proxy?url=' + encodeURIComponent(absolute)`. -/
def rewriteHlsLine (workerBase origin basePath line : List Char) : List Char :=
  let trimmed := jsTrim line
  if trimmed.isEmpty || "#".data.isPrefixOf trimmed then line
  else workerBase ++ "/proxy?url=".data ++
    encodeURIComponentL (absolutiseUri origin basePath trimmed)

/-- Whole-playlist rewrite of `proxyM3u8` on the lines of the text. -/
def rewriteHls (workerBase origin basePath : List Char) (lines : List (List Char)) :
    List (List Char) :=
  lines.map (rewriteHlsLine workerBase origin basePath)

/-! ## Title similarity and the Jikan acceptance gate (services/resolver.ts,
utils/normalizer.ts, services/jikan.ts) -/

/-- Levenshtein edit distance.  The source computes it by the standard
Wagner–Fischer matrix (`AnimeNormalizer.levenshteinDistance`); this is the
recurrence that matrix implements. -/
def levenshtein : List Char → List Char → Nat
  | [], b => b.length
  | a, [] => a.length
  | x :: xs, y :: ys =>
    if x = y then levenshtein xs ys
    else 1 + min (levenshtein xs ys) (min (levenshtein (x :: xs) ys) (levenshtein xs (y :: ys)))
termination_by a b => a.length + b.length
decreasing_by all_goals (simp_wf <;> omega)

/-- Embedding of `AnimeNormalizer.calculateSimilarity`: lower-case both
sides, identical strings score 1, otherwise
`(longer.length − levenshtein) / longer.length` (exact rationals stand in
for the JavaScript float division). -/
def calculateSimilarity (str1 str2 : List Char) : ℚ :=
  let s1 := str1.map Char.toLower
  let s2 := str2.map Char.toLower
  if s1 = s2 then 1
  else
    let longer := if s1.length > s2.length then s1 else s2
    if longer.length = 0 then 1
    else ((longer.length : ℚ) - (levenshtein s1 s2 : ℚ)) / (longer.length : ℚ)

/-- Title gate of `runDiscovery` (`isExact`): similarity of the two
season-normalised cleaned titles is at least `TITLE_SIMILARITY_THRESHOLD`
(0.85).  The two already-normalised title forms are taken as inputs; the
regex pre-processing `normaliseSeason`/`cleanTitle` is outside this
embedding. -/
def titleGate (t1 t2 : List Char) : Bool :=
  decide (calculateSimilarity t1 t2 ≥ 85 / 100)

/-- Embedding of `validateMetadataMatch` (services/jikan.ts lines 277–296):
when both years are known their absolute difference must be ≤ 1; when both
episode counts are known their absolute difference must be ≤ the episode
tolerance; unknown fields pass. -/
def validateMetadataMatch (jYear jEps sYear sEps : Option Int) (tol : Nat) : Bool :=
  (match jYear, sYear with
   | some jy, some sy => decide ((jy - sy).natAbs ≤ 1)
   | _, _ => true) &&
  (match jEps, sEps with
   | some je, some se => decide ((je - se).natAbs ≤ tol)
   | _, _ => true)

/-- Acceptance gate of `runDiscovery` step 4–5 (services/resolver.ts):
`hasKnownYear ? isExact && metaOk : isExact || metaOk`, with
`EPISODE_COUNT_TOLERANCE = 2`.  `t1`/`t2` are the season-normalised cleaned
scraped and Jikan titles, `sYear`/`sEps` the scraped year and episode count,
`jYear`/`jEps` the Jikan candidate metadata. -/
def jikanAccepted (t1 t2 : List Char) (jYear jEps sYear sEps : Option Int) : Bool :=
  let isExact := titleGate t1 t2
  let metaOk := validateMetadataMatch jYear jEps sYear sEps 2
  match sYear with
  | some _ => isExact && metaOk
  | none => isExact || metaOk

/-! ## The video queue — `enqueue_video` (docs/migration.sql lines 334–363)
and the `video_queue` table

The table is embedded as a list of rows.  `ON CONFLICT` follows PostgreSQL
semantics for the unique constraint
`uq_video_queue UNIQUE (mal_id, episode, provider, resolution)`: two rows
conflict only when every key column is equal and, in particular, a NULL
`resolution` never equals another NULL (`NULLS DISTINCT`, the default). -/

inductive QStatus where
  | pending
  | downloading
  | uploading
  | ready
  | failed
deriving DecidableEq, Repr

/-- Row of `video_queue`. -/
structure QueueRow where
  id : Nat
  malId : Int
  episode : Int
  provider : String
  videoUrl : String
  resolution : Option String
  status : QStatus
  retryCount : Nat
  errorMessage : Option String
  createdAt : Nat
  updatedAt : Nat
deriving DecidableEq, Repr

/-- PostgreSQL conflict test for `uq_video_queue`: NULL resolutions are
distinct, so a conflict requires both resolutions non-null and equal. -/
def sqlKeyConflict (r : QueueRow) (m e : Int) (p : String) (res : Option String) : Bool :=
  decide (r.malId = m) && decide (r.episode = e) && decide (r.provider = p) &&
  (match r.resolution, res with
   | some a, some b => decide (a = b)
   | _, _ => false)

/-- Plain field equality on the logical key (used to count the rows carrying
a given key, where NULL is just a value). -/
def rowKeyEq (r : QueueRow) (m e : Int) (p : String) (res : Option String) : Bool :=
  decide (r.malId = m) && decide (r.episode = e) && decide (r.provider = p) &&
  decide (r.resolution = res)

/-- Update applied by the `DO UPDATE` arm of `enqueue_video`: keep
`video_url` when the row is `ready`, reset `failed` to `pending`, refresh
`updated_at`. -/
def enqueueUpdateRow (now : Nat) (u : String) (r : QueueRow) : QueueRow :=
  { r with
    videoUrl := if r.status = QStatus.ready then r.videoUrl else u
    status := if r.status = QStatus.failed then QStatus.pending else r.status
    updatedAt := now }

/-- Embedding of the stored function `enqueue_video`:
`INSERT … ON CONFLICT (mal_id, episode, provider, resolution) DO UPDATE`.
`now` models `NOW()` and `fresh` the generated UUID of a new row. -/
def enqueueVideoSql (now fresh : Nat) (m e : Int) (p u : String) (res : Option String)
    (t : List QueueRow) : List QueueRow :=
  if t.any (fun r => sqlKeyConflict r m e p res) then
    t.map fun r => if sqlKeyConflict r m e p res then enqueueUpdateRow now u r else r
  else
    t ++ [{ id := fresh, malId := m, episode := e, provider := p, videoUrl := u,
            resolution := res, status := QStatus.pending, retryCount := 0,
            errorMessage := none, createdAt := now, updatedAt := now }]

/-! ## The mapping table — `upsert_anime_mapping`
(docs/migration.sql lines 216–251) -/

/-- Row of `anime_mappings` (`mal_id` is unique and not null). -/
structure MappingRow where
  malId : Int
  titleMain : String
  slugSamehadaku : Option String
  slugAnimasu : Option String
  phashV1 : Option String
  releaseYear : Option Int
  totalEpisodes : Option Int
  lastSync : Nat
deriving DecidableEq, Repr

/-- Update arm of `upsert_anime_mapping`: every nullable field is
`COALESCE(EXCLUDED.field, existing.field)`, `title_main` is always supplied
non-null by the API, and `last_sync` becomes `NOW()`. -/
def mappingUpdateRow (now : Nat) (title : String) (sS sA ph : Option String)
    (ry te : Option Int) (r : MappingRow) : MappingRow :=
  { r with
    titleMain := title
    slugSamehadaku := sS <|> r.slugSamehadaku
    slugAnimasu := sA <|> r.slugAnimasu
    phashV1 := ph <|> r.phashV1
    releaseYear := ry <|> r.releaseYear
    totalEpisodes := te <|> r.totalEpisodes
    lastSync := now }

/-- Embedding of the stored function `upsert_anime_mapping`:
`INSERT … ON CONFLICT (mal_id) DO UPDATE` with field-wise coalescing. -/
def upsertAnimeMapping (now : Nat) (m : Int) (title : String) (sS sA ph : Option String)
    (ry te : Option Int) (t : List MappingRow) : List MappingRow :=
  if t.any (fun r => decide (r.malId = m)) then
    t.map fun r => if r.malId = m then mappingUpdateRow now title sS sA ph ry te r else r
  else
    t ++ [{ malId := m, titleMain := title, slugSamehadaku := sS, slugAnimasu := sA,
            phashV1 := ph, releaseYear := ry, totalEpisodes := te, lastSync := now }]

/-! ## Perceptual-hash Hamming distance — `hammingDistance`
(services/image.ts lines 141–156) -/

/-- Popcount loop of the source (`while (xored !== 0) { dist += xored & 1;
xored >>= 1 }`). -/
def popcount (n : Nat) : Nat :=
  if n = 0 then 0 else n % 2 + popcount (n / 2)
termination_by n
decreasing_by all_goals (simp_wf; omega)

/-- JavaScript `parseInt(c, 16) ^ …` on one character: a hex digit gives its
value, anything else gives `NaN`, which `ToInt32` turns into 0 inside the
xor. -/
def jsHexNibble (c : Char) : Nat := (hexDigitVal c.toNat).getD 0

/-- Embedding of `hammingDistance`: −1 on length mismatch, else the sum over
character positions of the popcount of the xor of the two nibbles. -/
def hammingDistance (hash1 hash2 : List Char) : Int :=
  if hash1.length ≠ hash2.length then -1
  else (((hash1.zip hash2).map fun p => popcount (jsHexNibble p.1 ^^^ jsHexNibble p.2)).sum : Nat)

/-- Character is one of `0-9 a-f A-F`. -/
def isHexDigitChar (c : Char) : Bool := (hexDigitVal c.toNat).isSome

/-- A 64-character hex string (the shape of a stored pHash). -/
def is64Hex (h : List Char) : Bool := h.length == 64 && h.all isHexDigitChar

/-! ## Per-server enrichment — `enrichWithStreamUrls`
(services/streaming.ts lines 340–428)

The decision the function takes for one server, as a pure function of the
store lookup result, the queue lookup result and the server record.  The
`Promise`/`await` plumbing and the swallow-all `catch` (which can only fire
on store errors, outside this pure model) are not modelled. -/

/-- Streaming server entry (types/anime.ts): `{provider, url, url_resolved,
resolution, stream}`. -/
structure StreamingServer where
  provider : String
  url : String
  urlResolved : Option String
  resolution : Option String
  stream : Option String
deriving DecidableEq, Repr

/-- Row of `video_store` (the fields the enrichment reads). -/
structure VideoStoreEntry where
  malId : Int
  episode : Int
  provider : String
  resolution : Option String
  hfDirectUrl : String
  streamUrl : String
deriving DecidableEq, Repr

/-- Payload shared by `enqueueVideo` and the webhook body
`{mal_id, episode, provider, video_url, resolution}`. -/
structure EnqueueCall where
  malId : Int
  episode : Int
  provider : String
  videoUrl : String
  resolution : Option String
deriving DecidableEq, Repr

/-- Result of enriching one server: the updated server record, the enqueue
call issued (if any) and the webhook payload posted (if any). -/
structure EnrichOutcome where
  server : StreamingServer
  enqueued : Option EnqueueCall
  webhook : Option EnqueueCall
deriving DecidableEq, Repr

/-- Host families whose resolved URL is key- or ASN-bound, for which the
embed URL is enqueued instead (`needsEmbedUrl` in streaming.ts). -/
def needsEmbedUrl (u : String) : Bool :=
  match hostnameOf u.data with
  | none => false
  | some h =>
    containsSub "mega.nz".data h || containsSub "mega.co.nz".data h ||
    containsSub "vidhidepro".data h || containsSub "vidhidefast".data h ||
    containsSub "callistanise".data h

/-- Per-server body of `enrichWithStreamUrls`:
no `url_resolved` → `stream = null`, nothing fired;
store hit → rewrite `url_resolved`/`stream` to the archived URL, nothing
fired; store miss → build the proxy stream URL, then fire enqueue + webhook
if and only if `findVideoQueueEntry` returned no row (any status counts). -/
def enrichServer (base : String) (malId episode : Int) (provider : String)
    (stored : Option VideoStoreEntry) (queueEntry : Option QueueRow)
    (s : StreamingServer) : EnrichOutcome :=
  match s.urlResolved with
  | none => ⟨{ s with stream := none }, none, none⟩
  | some ru =>
    match stored with
    | some st =>
      ⟨{ s with urlResolved := some st.hfDirectUrl,
                stream := buildStreamUrl base st.hfDirectUrl }, none, none⟩
    | none =>
      let s1 := { s with stream := buildStreamUrl base ru }
      match queueEntry with
      | some _ => ⟨s1, none, none⟩
      | none =>
        let d := if needsEmbedUrl s.url then s.url else ru
        let call : EnqueueCall := ⟨malId, episode, provider, d, s.resolution⟩
        ⟨s1, some call, some call⟩

/-! ## The cache-invalidation route — `POST /api/v1/streaming/invalidate`
(index.ts lines 44–122) -/

/-- JSON value of a body field, as the route handler inspects it. -/
inductive JVal where
  | jnull
  | jnum (q : ℚ)
  | jstr (s : String)
  | jbool (b : Bool)
deriving DecidableEq, Repr

/-- Parsed request body; `none` fields are absent keys.  A field holding an
object or array would compare unequal to the salt and fail the number
checks exactly like `jnull`/`jbool`, so those two constructors cover them. -/
structure InvalidateBody where
  malId : Option JVal
  episode : Option JVal
  secret : Option JVal
deriving DecidableEq, Repr

/-- Response of the invalidate route together with the streaming cache
after the request (the cache is modelled by its key set `(malId, episode)`). -/
structure InvalidateResult where
  status : Nat
  success : Bool
  cache : List (Int × Int)
deriving DecidableEq, Repr

/-- The checks `typeof v === 'number' && Number.isInteger(v) && v > 0`,
yielding the integer. -/
def jsPosInt (v : Option JVal) : Option Int :=
  match v with
  | some (JVal.jnum q) => if q.den = 1 ∧ 0 < q then some q.num else none
  | _ => none

/-- Embedding of the invalidate route: a body that failed JSON parsing is
`none` (→ 400); a secret differing from the salt → 401; non-positive or
non-integer ids → 400; otherwise the cache key is deleted and 200 returned. -/
def handleInvalidate (salt : String) (req : Option InvalidateBody)
    (cache : List (Int × Int)) : InvalidateResult :=
  match req with
  | none => ⟨400, false, cache⟩
  | some b =>
    if b.secret ≠ some (JVal.jstr salt) then ⟨401, false, cache⟩
    else
      match jsPosInt b.malId, jsPosInt b.episode with
      | some m, some e => ⟨200, true, cache.filter fun kv => ¬kv = (m, e)⟩
      | _, _ => ⟨400, false, cache⟩

/-! # Theorems -/

/-! ## C2 — the proxy decode against the emission of `buildStreamUrl` -/

lemma hexDigitVal_toHexDigitUpper : ∀ n < 16, hexDigitVal (toHexDigitUpper n) = some n := by
  decide

lemma isUnreservedByte_ne_43 {b : Nat} (h : isUnreservedByte b = true) : b ≠ 43 := by
  rintro rfl; exact absurd h (by decide)

lemma isUnreservedByte_ne_37 {b : Nat} (h : isUnreservedByte b = true) : b ≠ 37 := by
  rintro rfl; exact absurd h (by decide)

lemma formDecode_cons_plain {b : Nat} (h43 : b ≠ 43) (h37 : b ≠ 37) (rest : List Nat) :
    formDecode (b :: rest) = b :: formDecode rest := by
  rw [formDecode.eq_def]
  simp [h43, h37]

lemma formDecode_escape {h l hv lv : Nat} (hh : hexDigitVal h = some hv)
    (hl : hexDigitVal l = some lv) (rest : List Nat) :
    formDecode (37 :: h :: l :: rest) = (16 * hv + lv) :: formDecode rest := by
  rw [formDecode.eq_def]
  simp [hh, hl]

lemma formDecode_encode : ∀ u : List Nat, (∀ b ∈ u, b < 256) →
    formDecode (encodeURIComponentBytes u) = u := by
  intro u
  induction u with
  | nil => intro _; simp [encodeURIComponentBytes, formDecode]
  | cons b rest ih =>
    intro hu
    have hb : b < 256 := hu b (by simp)
    have hrest : ∀ x ∈ rest, x < 256 := fun x hx => hu x (by simp [hx])
    rw [encodeURIComponentBytes]
    by_cases hun : isUnreservedByte b = true
    · rw [encodeByte, if_pos hun, List.cons_append, List.nil_append,
        formDecode_cons_plain (isUnreservedByte_ne_43 hun) (isUnreservedByte_ne_37 hun),
        ih hrest]
    · rw [encodeByte, if_neg hun]
      have h1 : hexDigitVal (toHexDigitUpper (b / 16)) = some (b / 16) :=
        hexDigitVal_toHexDigitUpper _ (by omega)
      have h2 : hexDigitVal (toHexDigitUpper (b % 16)) = some (b % 16) :=
        hexDigitVal_toHexDigitUpper _ (by omega)
      simp only [List.cons_append, List.nil_append]
      rw [formDecode_escape h1 h2, ih hrest]
      congr 1
      omega

lemma decodeURIComponentBytes_no_percent : ∀ u : List Nat, 37 ∉ u →
    decodeURIComponentBytes u = some u := by
  intro u
  induction u with
  | nil => intro _; rw [decodeURIComponentBytes.eq_def]
  | cons b rest ih =>
    intro h
    have hb : b ≠ 37 := fun hm => h (by simp [hm])
    have hr : 37 ∉ rest := fun hm => h (List.mem_cons_of_mem _ hm)
    rw [decodeURIComponentBytes.eq_def]
    simp [hb, ih hr]

lemma splitOnByte_of_not_mem {sep : Nat} : ∀ l : List Nat, sep ∉ l →
    splitOnByte sep l = [l] := by
  intro l
  induction l with
  | nil => intro _; simp [splitOnByte]
  | cons b rest ih =>
    intro h
    have hb : b ≠ sep := fun hm => h (by simp [hm])
    have hr : sep ∉ rest := fun hm => h (List.mem_cons_of_mem _ hm)
    simp [splitOnByte, hb, ih hr]

lemma mem_encodeURIComponentBytes : ∀ u x, x ∈ encodeURIComponentBytes u →
    ∃ b ∈ u, x ∈ encodeByte b := by
  intro u
  induction u with
  | nil => intro x hx; simp [encodeURIComponentBytes] at hx
  | cons b rest ih =>
    intro x hx
    rw [encodeURIComponentBytes, List.mem_append] at hx
    rcases hx with hx | hx
    · exact ⟨b, by simp, hx⟩
    · obtain ⟨c, hc, hxc⟩ := ih x hx
      exact ⟨c, by simp [hc], hxc⟩

set_option maxRecDepth 4096 in
lemma encodeByte_avoids : ∀ b < 256, ∀ x ∈ encodeByte b, x ≠ 38 ∧ x ≠ 61 := by
  decide

/-- What the worker recovers from the emitted query: the first decode
(inside `searchParams.get`) undoes `encodeURIComponent` exactly, so only the
second, explicit `decodeURIComponent` remains. -/
lemma proxyDecode_emit (u : List Nat) (hbytes : ∀ b ∈ u, b < 256) :
    proxyDecodeUrlParam (emitProxyQuery u) = decodeURIComponentBytes u := by
  have hemit : emitProxyQuery u = 117 :: 114 :: 108 :: 61 :: encodeURIComponentBytes u := rfl
  have h38 : (38 : Nat) ∉ emitProxyQuery u := by
    rw [hemit]
    intro hm
    simp only [List.mem_cons] at hm
    rcases hm with h | h | h | h | h
    · omega
    · omega
    · omega
    · omega
    · obtain ⟨b, hb, hxb⟩ := mem_encodeURIComponentBytes u 38 h
      exact (encodeByte_avoids b (hbytes b hb) 38 hxb).1 rfl
  have hurl : urlParamName = [117, 114, 108] := rfl
  have hname : formDecode [117, 114, 108] = [117, 114, 108] := by
    simp [formDecode]
  unfold proxyDecodeUrlParam getQueryParam
  rw [splitOnByte_of_not_mem _ h38, hemit]
  have htake : (117 :: 114 :: 108 :: 61 :: encodeURIComponentBytes u).takeWhile
      (fun b => ¬b = 61) = [117, 114, 108] := by
    simp [List.takeWhile_cons]
  have hdrop : (117 :: 114 :: 108 :: 61 :: encodeURIComponentBytes u).dropWhile
      (fun b => ¬b = 61) = 61 :: encodeURIComponentBytes u := by
    simp [List.dropWhile_cons]
  have hfilter : List.filter (fun p => ¬p = [])
      [((117 : Nat) :: 114 :: 108 :: 61 :: encodeURIComponentBytes u)] =
      [117 :: 114 :: 108 :: 61 :: encodeURIComponentBytes u] := by
    simp
  rw [hfilter, List.findSome?_cons]
  simp only [htake, hdrop, hname, hurl, List.drop_succ_cons, List.drop_zero]
  simp only [if_true, Option.some_bind]
  rw [formDecode_encode u hbytes]

/-- C2 — refuted as universally quantified: the worker percent-decodes the
`url` parameter twice (once inside `searchParams.get`, once via the explicit
`decodeURIComponent`), so an absolute URL containing `%` does not round-trip:
`https://e.com/a%20b.mp4` comes back as `https://e.com/a b.mp4`. -/
theorem proxy_roundtrip_cex :
    proxyDecodeUrlParam (emitProxyQuery (strBytes "https://e.com/a%20b.mp4")) =
      some (strBytes "https://e.com/a b.mp4") ∧
    proxyDecodeUrlParam (emitProxyQuery (strBytes "https://e.com/a%20b.mp4")) ≠
      some (strBytes "https://e.com/a%20b.mp4") := by
  have h1 : proxyDecodeUrlParam (emitProxyQuery (strBytes "https://e.com/a%20b.mp4")) =
      some (strBytes "https://e.com/a b.mp4") := by
    rw [proxyDecode_emit _ (by decide)]
    simp [decodeURIComponentBytes, hexDigitVal, strBytes]
  refine ⟨h1, ?_⟩
  rw [h1]
  intro h
  have := Option.some.inj h
  exact absurd this (by decide)

/-- C2 (amended) — for every absolute URL whose bytes are free of `%`, the
decode performed by `GET /proxy` on the query emitted as
`url=` + `encodeURIComponent(u)` returns exactly `u`. -/
theorem proxy_roundtrip_percent_free (u : List Nat) (hbytes : ∀ b ∈ u, b < 256)
    (hpct : 37 ∉ u) : proxyDecodeUrlParam (emitProxyQuery u) = some u := by
  rw [proxyDecode_emit u hbytes]
  exact decodeURIComponentBytes_no_percent u hpct

/-- Witness for `proxy_roundtrip_percent_free` at a concrete URL. -/
theorem proxy_roundtrip_percent_free_witness :
    proxyDecodeUrlParam (emitProxyQuery (strBytes "https://cdn.example.com/v1/video.mp4")) =
      some (strBytes "https://cdn.example.com/v1/video.mp4") :=
  proxy_roundtrip_percent_free _ (by decide) (by decide)

/-! ## C3 — header normalisation of `proxyStream` -/

/-- C3 — refuted as stated: the claim requires `Accept-Ranges: bytes` on
every proxied response, but on the non-HuggingFace path the worker only
copies `Accept-Ranges` when the upstream sent it.  Here the upstream sends
none and the proxied response carries no `Accept-Ranges` header at all. -/
theorem proxy_headers_cex :
    (proxyStreamHeaders "https://cdn.example/v.mp4".data
      { status := 200, contentType := some "video/mp4".data, contentLength := none,
        contentRange := none, acceptRanges := none, contentDisposition := none }).acceptRanges
      = none ∧
    (proxyStreamHeaders "https://cdn.example/v.mp4".data
      { status := 200, contentType := some "video/mp4".data, contentLength := none,
        contentRange := none, acceptRanges := none, contentDisposition := none }).acceptRanges
      ≠ some "bytes".data := by
  exact ⟨rfl, by decide⟩

/-- C3 (amended) — for every upstream response proxied by `GET /proxy`:
`Content-Disposition` is always `inline` and never forwarded; on the
non-HuggingFace path the `Content-Type` is `video/mp4` unless the upstream
media type contains `mpegurl` or the URL contains `.m3u8` anywhere (then
`application/vnd.apple.mpegurl`), and `Accept-Ranges` is copied from the
upstream verbatim (absent when the upstream omits it); on the HuggingFace
two-hop path the `Content-Type` is always `video/mp4` and `Accept-Ranges`
falls back to `bytes` only when the upstream omits it. -/
theorem proxy_headers_spec (url : List Char) (up : UpstreamResponse) :
    (proxyStreamHeaders url up).contentDisposition = some "inline".data ∧
    (isHuggingFaceUrl url = false →
      (proxyStreamHeaders url up).contentType =
        some (if hlsIndicated url up then "application/vnd.apple.mpegurl".data
              else "video/mp4".data) ∧
      (proxyStreamHeaders url up).acceptRanges = up.acceptRanges) ∧
    (isHuggingFaceUrl url = true →
      (proxyStreamHeaders url up).contentType = some "video/mp4".data ∧
      (proxyStreamHeaders url up).acceptRanges = some (up.acceptRanges.getD "bytes".data)) := by
  cases hH : isHuggingFaceUrl url <;> simp [proxyStreamHeaders, hH]

/-- Witness for `proxy_headers_spec` on the non-HuggingFace path. -/
theorem proxy_headers_spec_witness :
    isHuggingFaceUrl "https://cdn.example/v.mp4".data = false ∧
    ((proxyStreamHeaders "https://cdn.example/v.mp4".data
        { status := 206, contentType := some "application/octet-stream".data,
          contentLength := some "1024".data, contentRange := none,
          acceptRanges := some "bytes".data,
          contentDisposition := some "attachment".data }).contentType =
      some (if hlsIndicated "https://cdn.example/v.mp4".data
        { status := 206, contentType := some "application/octet-stream".data,
          contentLength := some "1024".data, contentRange := none,
          acceptRanges := some "bytes".data,
          contentDisposition := some "attachment".data } then
          "application/vnd.apple.mpegurl".data else "video/mp4".data) ∧
     (proxyStreamHeaders "https://cdn.example/v.mp4".data
        { status := 206, contentType := some "application/octet-stream".data,
          contentLength := some "1024".data, contentRange := none,
          acceptRanges := some "bytes".data,
          contentDisposition := some "attachment".data }).acceptRanges =
      some "bytes".data) :=
  ⟨by decide, (proxy_headers_spec _ _).2.1 (by decide)⟩

/-! ## C4 — the Jikan acceptance gate of `runDiscovery` -/

/-- C4 — confirmed: when the scraped year is known, a Jikan candidate is
accepted iff both the title-similarity gate (season-normalised similarity
≥ 0.85) and the metadata-validation gate pass; when the scraped year is
unknown, either gate alone is sufficient (and necessary). -/
theorem jikan_acceptance_gate :
    (∀ (t1 t2 : List Char) (jY jE sE : Option Int) (y : Int),
      jikanAccepted t1 t2 jY jE (some y) sE = true ↔
        (titleGate t1 t2 = true ∧ validateMetadataMatch jY jE (some y) sE 2 = true)) ∧
    (∀ (t1 t2 : List Char) (jY jE sE : Option Int),
      jikanAccepted t1 t2 jY jE none sE = true ↔
        (titleGate t1 t2 = true ∨ validateMetadataMatch jY jE none sE 2 = true)) := by
  constructor
  · intro t1 t2 jY jE sE y
    simp [jikanAccepted]
  · intro t1 t2 jY jE sE
    simp [jikanAccepted]

/-! ## C6 — the HLS playlist rewriter `proxyM3u8` -/

/-- C6 — confirmed: the rewriter maps the playlist line-by-line (so the line
count is preserved); a line that trims to empty or to a `#`-comment is
reproduced verbatim; every other line becomes
`workerBase + '/proxy?url=' + encodeURIComponent(a)` where `a` is the
trimmed URI absolutised against the playlist base exactly as the source
does it. -/
theorem rewrite_hls_spec (wb origin basePath : List Char) (lines : List (List Char)) :
    (rewriteHls wb origin basePath lines).length = lines.length ∧
    (∀ line ∈ lines,
      ((jsTrim line).isEmpty = true ∨ "#".data.isPrefixOf (jsTrim line) = true) →
      rewriteHlsLine wb origin basePath line = line) ∧
    (∀ line ∈ lines, (jsTrim line).isEmpty = false →
      "#".data.isPrefixOf (jsTrim line) = false →
      rewriteHlsLine wb origin basePath line =
        wb ++ "/proxy?url=".data ++
          encodeURIComponentL (absolutiseUri origin basePath (jsTrim line))) ∧
    rewriteHls wb origin basePath lines = lines.map (rewriteHlsLine wb origin basePath) := by
  refine ⟨by simp [rewriteHls], ?_, ?_, rfl⟩
  · intro line _ h
    rcases h with h | h <;> simp [rewriteHlsLine, h]
  · intro line _ h1 h2
    simp [rewriteHlsLine, h1, h2]

/-- Witness for `rewrite_hls_spec` on a concrete master playlist. -/
theorem rewrite_hls_spec_witness :
    rewriteHlsLine "https://wk.dev".data "https://h.cdn".data "https://h.cdn/hls".data
      "#EXTM3U".data = "#EXTM3U".data ∧
    rewriteHlsLine "https://wk.dev".data "https://h.cdn".data "https://h.cdn/hls".data
      "index-v1-a1.m3u8?t=X".data =
      "https://wk.dev".data ++ "/proxy?url=".data ++
        encodeURIComponentL (absolutiseUri "https://h.cdn".data "https://h.cdn/hls".data
          (jsTrim "index-v1-a1.m3u8?t=X".data)) := by
  constructor
  · exact (rewrite_hls_spec "https://wk.dev".data "https://h.cdn".data "https://h.cdn/hls".data
      ["#EXTM3U".data, "index-v1-a1.m3u8?t=X".data]).2.1 "#EXTM3U".data (by simp)
      (Or.inr (by decide))
  · exact (rewrite_hls_spec "https://wk.dev".data "https://h.cdn".data "https://h.cdn/hls".data
      ["#EXTM3U".data, "index-v1-a1.m3u8?t=X".data]).2.2.1 "index-v1-a1.m3u8?t=X".data
      (by simp) (by decide) (by decide)

/-! ## C5 — the `enqueue_video` upsert -/

lemma filter_map_updateB {α : Type} (p : α → Bool) (f : α → α)
    (hpf : ∀ x, p (f x) = p x) (t : List α) :
    (t.map fun x => if p x then f x else x).filter p = (t.filter p).map f := by
  induction t with
  | nil => simp
  | cons a t ih =>
    cases h : p a with
    | true => simp [h, hpf, ih]
    | false => simp [h, hpf, ih]

lemma enqueueUpdateRow_key (now : Nat) (u : String) (r : QueueRow) (m e : Int)
    (p : String) (res : Option String) :
    sqlKeyConflict (enqueueUpdateRow now u r) m e p res = sqlKeyConflict r m e p res := rfl

lemma sqlKeyConflict_some (row : QueueRow) (m e : Int) (p r : String) :
    sqlKeyConflict row m e p (some r) = rowKeyEq row m e p (some r) := by
  cases hr : row.resolution <;> simp [sqlKeyConflict, rowKeyEq, hr]

/-- C5 — refuted as stated for a NULL resolution: the unique constraint
`uq_video_queue` treats NULLs as distinct, so `ON CONFLICT` never fires for
a null-resolution key and a second `enqueue_video` inserts a second row for
the very same key instead of updating the first. -/
theorem enqueue_video_null_resolution_cex :
    ((enqueueVideoSql 1 1 7 1 "animasu" "https://a/" none
        (enqueueVideoSql 0 0 7 1 "animasu" "https://a/" none [])).filter
      (fun row => rowKeyEq row 7 1 "animasu" none)).length = 2 := by
  decide

/-- C5 (amended) — for every key whose resolution is non-null,
`enqueue_video` is insert-or-update: applied twice from a state with no row
for the key it leaves exactly one row for the key; applied to an existing
row it updates that row in place, leaving status and `video_url` unchanged
when the status is `ready`, resetting `failed` to `pending` with the new
`video_url`, and otherwise keeping the status while refreshing `video_url`
and `updated_at`.  (For a null resolution each call inserts a fresh row, as
the counterexample shows.) -/
theorem enqueue_video_upsert_nonnull :
    (∀ (now1 f1 now2 f2 : Nat) (m e : Int) (p u1 u2 r : String) (t : List QueueRow),
      t.filter (fun row => rowKeyEq row m e p (some r)) = [] →
      ((enqueueVideoSql now2 f2 m e p u2 (some r)
          (enqueueVideoSql now1 f1 m e p u1 (some r) t)).filter
        (fun row => rowKeyEq row m e p (some r))).length = 1) ∧
    (∀ (now f : Nat) (m e : Int) (p u r : String) (t : List QueueRow) (row : QueueRow),
      t.filter (fun x => rowKeyEq x m e p (some r)) = [row] →
      (enqueueVideoSql now f m e p u (some r) t).filter
          (fun x => rowKeyEq x m e p (some r)) = [enqueueUpdateRow now u row] ∧
      (row.status = QStatus.ready →
        (enqueueUpdateRow now u row).status = row.status ∧
        (enqueueUpdateRow now u row).videoUrl = row.videoUrl) ∧
      (row.status = QStatus.failed →
        (enqueueUpdateRow now u row).status = QStatus.pending ∧
        (enqueueUpdateRow now u row).videoUrl = u) ∧
      (row.status ≠ QStatus.ready → row.status ≠ QStatus.failed →
        (enqueueUpdateRow now u row).status = row.status ∧
        (enqueueUpdateRow now u row).videoUrl = u ∧
        (enqueueUpdateRow now u row).updatedAt = now)) := by
  have hpred : ∀ (m e : Int) (p r : String),
      (fun x => rowKeyEq x m e p (some r)) = (fun x => sqlKeyConflict x m e p (some r)) :=
    fun m e p r => funext fun x => (sqlKeyConflict_some x m e p r).symm
  constructor
  · intro now1 f1 now2 f2 m e p u1 u2 r t hempty
    rw [hpred] at hempty ⊢
    have hnoc : (t.any fun row => sqlKeyConflict row m e p (some r)) = false := by
      rw [List.any_eq_false]
      intro x hx
      have := List.filter_eq_nil_iff.mp hempty x hx
      simpa using this
    have hnew : sqlKeyConflict
        { id := f1, malId := m, episode := e, provider := p, videoUrl := u1,
          resolution := some r, status := QStatus.pending, retryCount := 0,
          errorMessage := none, createdAt := now1, updatedAt := now1 } m e p (some r) = true := by
      simp [sqlKeyConflict]
    have h1 : enqueueVideoSql now1 f1 m e p u1 (some r) t = t ++
        [{ id := f1, malId := m, episode := e, provider := p, videoUrl := u1,
           resolution := some r, status := QStatus.pending, retryCount := 0,
           errorMessage := none, createdAt := now1, updatedAt := now1 }] := by
      unfold enqueueVideoSql
      rw [if_neg (by simp [hnoc])]
    rw [h1]
    unfold enqueueVideoSql
    rw [if_pos (by simp [List.any_append, hnew])]
    rw [filter_map_updateB (fun x => sqlKeyConflict x m e p (some r))
      (enqueueUpdateRow now2 u2) (fun x => enqueueUpdateRow_key now2 u2 x m e p (some r))]
    rw [List.filter_append, hempty, List.nil_append]
    simp [hnew]
  · intro now f m e p u r t row hrow
    rw [hpred] at hrow ⊢
    have hmem : row ∈ t.filter (fun x => sqlKeyConflict x m e p (some r)) := by
      rw [hrow]; simp
    have hrowt : row ∈ t := (List.mem_filter.mp hmem).1
    have hrowc : sqlKeyConflict row m e p (some r) = true := (List.mem_filter.mp hmem).2
    refine ⟨?_, ?_, ?_, ?_⟩
    · unfold enqueueVideoSql
      rw [if_pos (List.any_eq_true.mpr ⟨row, hrowt, hrowc⟩)]
      rw [filter_map_updateB (fun x => sqlKeyConflict x m e p (some r))
        (enqueueUpdateRow now u) (fun x => enqueueUpdateRow_key now u x m e p (some r))]
      rw [hrow]
      rfl
    · intro h; simp [enqueueUpdateRow, h]
    · intro h; simp [enqueueUpdateRow, h]
    · intro h1 h2; simp [enqueueUpdateRow, h1, h2]

/-- Witness for `enqueue_video_upsert_nonnull`: both parts applied at
concrete inputs (an empty table, then a table holding one `failed` row). -/
theorem enqueue_video_upsert_nonnull_witness :
    (((enqueueVideoSql 1 1 7 1 "animasu" "https://b/" (some "720p")
        (enqueueVideoSql 0 0 7 1 "animasu" "https://a/" (some "720p") [])).filter
      (fun row => rowKeyEq row 7 1 "animasu" (some "720p"))).length = 1) ∧
    ((enqueueVideoSql 5 9 7 1 "animasu" "https://b/" (some "720p")
        [⟨0, 7, 1, "animasu", "https://a/", some "720p", QStatus.failed, 1, some "err", 0, 0⟩]).filter
        (fun x => rowKeyEq x 7 1 "animasu" (some "720p")) =
      [enqueueUpdateRow 5 "https://b/"
        ⟨0, 7, 1, "animasu", "https://a/", some "720p", QStatus.failed, 1, some "err", 0, 0⟩]) ∧
    ((enqueueUpdateRow 5 "https://b/"
        ⟨0, 7, 1, "animasu", "https://a/", some "720p", QStatus.failed, 1, some "err", 0, 0⟩).status
      = QStatus.pending ∧
     (enqueueUpdateRow 5 "https://b/"
        ⟨0, 7, 1, "animasu", "https://a/", some "720p", QStatus.failed, 1, some "err", 0, 0⟩).videoUrl
      = "https://b/") := by
  refine ⟨?_, ?_, ?_⟩
  · exact enqueue_video_upsert_nonnull.1 0 0 1 1 7 1 "animasu" "https://a/" "https://b/"
      "720p" [] rfl
  · exact (enqueue_video_upsert_nonnull.2 5 9 7 1 "animasu" "https://b/" "720p" _ _
      (by decide)).1
  · exact (enqueue_video_upsert_nonnull.2 5 9 7 1 "animasu" "https://b/" "720p"
      [⟨0, 7, 1, "animasu", "https://a/", some "720p", QStatus.failed, 1, some "err", 0, 0⟩]
      ⟨0, 7, 1, "animasu", "https://a/", some "720p", QStatus.failed, 1, some "err", 0, 0⟩
      (by decide)).2.2.1 rfl

/-! ## C7 — the `upsert_anime_mapping` coalescing upsert -/

lemma filter_map_updateP {α : Type} (q : α → Prop) [DecidablePred q] (f : α → α)
    (hqf : ∀ x, q (f x) ↔ q x) (t : List α) :
    (t.map fun x => if q x then f x else x).filter (fun x => decide (q x)) =
      (t.filter (fun x => decide (q x))).map f := by
  induction t with
  | nil => simp
  | cons a t ih =>
    by_cases h : q a
    · simp [h, hqf, ih]
    · simp [h, hqf, ih]

lemma mappingUpdateRow_key (now : Nat) (title : String) (sS sA ph : Option String)
    (ry te : Option Int) (r : MappingRow) (m : Int) :
    (mappingUpdateRow now title sS sA ph ry te r).malId = m ↔ r.malId = m := Iff.rfl

/-- C7 — confirmed: updating an existing mapping row by
`upsert_anime_mapping` coalesces field-wise (a non-null argument
overwrites, a null argument preserves the stored value), always sets
`last_sync` to now, and therefore never resets a non-null stored slug or
`phash_v1` back to null. -/
theorem upsert_mapping_coalesce (now : Nat) (m : Int) (title : String)
    (sS sA ph : Option String) (ry te : Option Int) (t : List MappingRow) (row : MappingRow)
    (hrow : t.filter (fun x => decide (x.malId = m)) = [row]) :
    (upsertAnimeMapping now m title sS sA ph ry te t).filter
        (fun x => decide (x.malId = m)) = [mappingUpdateRow now title sS sA ph ry te row] ∧
    (mappingUpdateRow now title sS sA ph ry te row).lastSync = now ∧
    (mappingUpdateRow now title sS sA ph ry te row).titleMain = title ∧
    (mappingUpdateRow now title sS sA ph ry te row).slugSamehadaku =
      (sS <|> row.slugSamehadaku) ∧
    (mappingUpdateRow now title sS sA ph ry te row).slugAnimasu = (sA <|> row.slugAnimasu) ∧
    (mappingUpdateRow now title sS sA ph ry te row).phashV1 = (ph <|> row.phashV1) ∧
    (mappingUpdateRow now title sS sA ph ry te row).releaseYear = (ry <|> row.releaseYear) ∧
    (mappingUpdateRow now title sS sA ph ry te row).totalEpisodes =
      (te <|> row.totalEpisodes) ∧
    (row.slugSamehadaku ≠ none →
      (mappingUpdateRow now title sS sA ph ry te row).slugSamehadaku ≠ none) ∧
    (row.slugAnimasu ≠ none →
      (mappingUpdateRow now title sS sA ph ry te row).slugAnimasu ≠ none) ∧
    (row.phashV1 ≠ none →
      (mappingUpdateRow now title sS sA ph ry te row).phashV1 ≠ none) := by
  have hmem : row ∈ t.filter (fun x => decide (x.malId = m)) := by rw [hrow]; simp
  have hrowt : row ∈ t := (List.mem_filter.mp hmem).1
  have hrowm : row.malId = m := by simpa using (List.mem_filter.mp hmem).2
  have horelse : ∀ {β : Type} (o o' : Option β), o ≠ none → (o' <|> o) ≠ none := by
    intro β o o' ho
    cases o' with
    | none => simpa using ho
    | some v => simp
  refine ⟨?_, rfl, rfl, rfl, rfl, rfl, rfl, rfl, ?_, ?_, ?_⟩
  · unfold upsertAnimeMapping
    rw [if_pos (List.any_eq_true.mpr ⟨row, hrowt, by simpa using hrowm⟩)]
    rw [filter_map_updateP (fun x => x.malId = m) (mappingUpdateRow now title sS sA ph ry te)
      (fun x => mappingUpdateRow_key now title sS sA ph ry te x m)]
    rw [hrow]
    rfl
  · exact fun h => horelse _ sS h
  · exact fun h => horelse _ sA h
  · exact fun h => horelse _ ph h

/-- Witness for `upsert_mapping_coalesce`: a second, partial upsert over a
seeded row keeps the stored Samehadaku slug and overwrites the Animasu
slug. -/
theorem upsert_mapping_coalesce_witness :
    (upsertAnimeMapping 9 55825 "Jigokuraku 2" none (some "jigokuraku-s2") none none none
        [⟨55825, "Jigokuraku", some "jigokuraku-season-2", none, none, some 2023, none, 3⟩]).filter
      (fun x => decide (x.malId = 55825)) =
      [mappingUpdateRow 9 "Jigokuraku 2" none (some "jigokuraku-s2") none none none
        ⟨55825, "Jigokuraku", some "jigokuraku-season-2", none, none, some 2023, none, 3⟩] ∧
    (mappingUpdateRow 9 "Jigokuraku 2" none (some "jigokuraku-s2") none none none
        ⟨55825, "Jigokuraku", some "jigokuraku-season-2", none, none, some 2023, none, 3⟩).slugSamehadaku =
      some "jigokuraku-season-2" ∧
    (mappingUpdateRow 9 "Jigokuraku 2" none (some "jigokuraku-s2") none none none
        ⟨55825, "Jigokuraku", some "jigokuraku-season-2", none, none, some 2023, none, 3⟩).slugAnimasu =
      some "jigokuraku-s2" := by
  have h := upsert_mapping_coalesce 9 55825 "Jigokuraku 2" none (some "jigokuraku-s2")
    none none none
    [⟨55825, "Jigokuraku", some "jigokuraku-season-2", none, none, some 2023, none, 3⟩]
    ⟨55825, "Jigokuraku", some "jigokuraku-season-2", none, none, some 2023, none, 3⟩
    (by decide)
  exact ⟨h.1, h.2.2.2.1, h.2.2.2.2.1⟩

/-! ## C8 — `hammingDistance` -/

lemma jsHexNibble_le (c : Char) : jsHexNibble c ≤ 15 := by
  unfold jsHexNibble hexDigitVal
  split_ifs <;> simp only [Option.getD_some, Option.getD_none] <;> omega

lemma popcount_zero : popcount 0 = 0 := by
  simp [popcount]

lemma popcount_le_four {x : Nat} (h : x < 16) : popcount x ≤ 4 := by
  interval_cases x <;> simp [popcount]

lemma zip_self_map {α : Type} (a : List α) : a.zip a = a.map (fun x => (x, x)) := by
  induction a with
  | nil => rfl
  | cons x xs ih => simp [List.zip_cons_cons, ih]

lemma hammingDistance_symm (a b : List Char) : hammingDistance a b = hammingDistance b a := by
  unfold hammingDistance
  by_cases h : a.length = b.length
  · rw [if_neg (by omega), if_neg (by omega)]
    congr 1
    have hswap : b.zip a = (a.zip b).map Prod.swap := (List.zip_swap a b).symm
    rw [hswap, List.map_map]
    have hfun : ((fun p : Char × Char => popcount (jsHexNibble p.1 ^^^ jsHexNibble p.2)) ∘
        Prod.swap) = fun p : Char × Char => popcount (jsHexNibble p.1 ^^^ jsHexNibble p.2) := by
      funext p
      simp [Function.comp, Nat.xor_comm]
    rw [hfun]
  · rw [if_pos (by omega), if_pos (by omega)]

/-- C8 — confirmed: for 64-character hex strings the Hamming distance is
symmetric and lies in `[0, 256]`; for every string `hamming(a,a) = 0`; and
strings of differing lengths give −1. -/
theorem hamming_distance_properties :
    (∀ a b : List Char, is64Hex a = true → is64Hex b = true →
      hammingDistance a b = hammingDistance b a ∧
      0 ≤ hammingDistance a b ∧ hammingDistance a b ≤ 256) ∧
    (∀ a : List Char, hammingDistance a a = 0) ∧
    (∀ a b : List Char, a.length ≠ b.length → hammingDistance a b = -1) := by
  refine ⟨?_, ?_, ?_⟩
  · intro a b ha hb
    have hla : a.length = 64 := by
      have h := ha
      simp [is64Hex] at h
      exact h.1
    have hlb : b.length = 64 := by
      have h := hb
      simp [is64Hex] at h
      exact h.1
    refine ⟨hammingDistance_symm a b, ?_, ?_⟩
    · unfold hammingDistance
      rw [if_neg (by omega)]
      exact Int.ofNat_nonneg _
    · unfold hammingDistance
      rw [if_neg (by omega)]
      have hsum : (((a.zip b).map fun p =>
          popcount (jsHexNibble p.1 ^^^ jsHexNibble p.2)).sum) ≤ 256 := by
        have hbound : ∀ x ∈ (a.zip b).map fun p =>
            popcount (jsHexNibble p.1 ^^^ jsHexNibble p.2), x ≤ 4 := by
          intro x hx
          obtain ⟨p, _, rfl⟩ := List.mem_map.mp hx
          apply popcount_le_four
          have h1 : jsHexNibble p.1 < 16 := Nat.lt_succ_of_le (jsHexNibble_le p.1)
          have h2 : jsHexNibble p.2 < 16 := Nat.lt_succ_of_le (jsHexNibble_le p.2)
          calc jsHexNibble p.1 ^^^ jsHexNibble p.2 < 2 ^ 4 :=
            Nat.xor_lt_two_pow h1 h2
          _ = 16 := by norm_num
        have hlen : ((a.zip b).map fun p =>
            popcount (jsHexNibble p.1 ^^^ jsHexNibble p.2)).length = 64 := by
          simp [List.length_zip, hla, hlb]
        have := List.sum_le_card_nsmul _ 4 hbound
        rw [hlen] at this
        simpa using this
      exact_mod_cast hsum
  · intro a
    unfold hammingDistance
    rw [if_neg (fun h => h rfl)]
    have hzero : (((a.zip a).map fun p =>
        popcount (jsHexNibble p.1 ^^^ jsHexNibble p.2)).sum) = 0 := by
      apply List.sum_eq_zero
      intro x hx
      obtain ⟨p, hp, rfl⟩ := List.mem_map.mp hx
      rw [zip_self_map] at hp
      obtain ⟨c, _, rfl⟩ := List.mem_map.mp hp
      simp [Nat.xor_self, popcount_zero]
    rw [hzero]
    rfl
  · intro a b h
    unfold hammingDistance
    rw [if_pos h]

/-- Witness for `hamming_distance_properties` at two concrete 64-hex
strings. -/
theorem hamming_distance_properties_witness :
    is64Hex (List.replicate 64 '0') = true ∧
    (hammingDistance (List.replicate 64 '0') (List.replicate 64 'f') =
        hammingDistance (List.replicate 64 'f') (List.replicate 64 '0') ∧
      0 ≤ hammingDistance (List.replicate 64 '0') (List.replicate 64 'f') ∧
      hammingDistance (List.replicate 64 '0') (List.replicate 64 'f') ≤ 256) :=
  ⟨by decide, hamming_distance_properties.1 _ _ (by decide) (by decide)⟩

/-! ## C1 — enqueue/webhook gating of `enrichWithStreamUrls` -/

/-- C1 — evaluation at the failing input: the store lookup misses and the
only queue entry for the key has status `failed`, yet the code fires
neither the enqueue nor the webhook, because the skip test is
`existing !== null` on `findVideoQueueEntry`, which matches entries of any
status — unlike the claim (and the adjacent code comments), which restrict
the skip to `pending/downloading/uploading(/ready)`. -/
theorem enrich_skips_enqueue_on_failed_entry :
    (enrichServer "https://wk.dev" 55825 1 "animasu" none
      (some ⟨0, 55825, 1, "animasu", "https://old/", some "720p", QStatus.failed, 1,
        some "err", 0, 0⟩)
      ⟨"Vidhidepro 720p", "https://vidhidepro.com/embed/x", some "https://cdn/v.m3u8",
        some "720p", none⟩).enqueued = none ∧
    (enrichServer "https://wk.dev" 55825 1 "animasu" none
      (some ⟨0, 55825, 1, "animasu", "https://old/", some "720p", QStatus.failed, 1,
        some "err", 0, 0⟩)
      ⟨"Vidhidepro 720p", "https://vidhidepro.com/embed/x", some "https://cdn/v.m3u8",
        some "720p", none⟩).webhook = none :=
  ⟨rfl, rfl⟩

/-! ## C9 — `buildStreamUrl` on an unconfigured proxy base -/

/-- C9 — confirmed: `buildStreamUrl` returns `null` exactly when the
configured `CF_WORKERS_BASE_URL` is the empty string, and with an empty
base every server coming out of the enrichment carries `stream = null`,
whatever the store, the queue and `url_resolved` hold. -/
theorem build_stream_url_none_iff :
    (∀ base u : String, buildStreamUrl base u = none ↔ base = "") ∧
    (∀ (malId episode : Int) (provider : String) (stored : Option VideoStoreEntry)
        (q : Option QueueRow) (s : StreamingServer),
      (enrichServer "" malId episode provider stored q s).server.stream = none) := by
  constructor
  · intro base u
    unfold buildStreamUrl
    by_cases h : base = "" <;> simp [h]
  · intro malId episode provider stored q s
    obtain ⟨pv, url, ures, res, st⟩ := s
    cases ures <;> cases stored <;> cases q <;> simp [enrichServer, buildStreamUrl]

/-! ## C10 — the `POST /api/v1/streaming/invalidate` route -/

lemma jsPosInt_pos {v : Option JVal} {m : Int} (h : jsPosInt v = some m) : 0 < m := by
  rcases v with _ | v
  · simp [jsPosInt] at h
  · rcases v with _ | q | s | bb
    · simp [jsPosInt] at h
    · simp only [jsPosInt] at h
      by_cases hq : q.den = 1 ∧ 0 < q
      · rw [if_pos hq] at h
        obtain rfl : q.num = m := Option.some.inj h
        exact Rat.num_pos.mpr hq.2
      · rw [if_neg hq] at h
        exact absurd h (by simp)
    · simp [jsPosInt] at h
    · simp [jsPosInt] at h

/-- C10 — confirmed: a request whose secret differs from the salt gets 401
with `success:false` and an unchanged cache, whatever `mal_id`/`episode`
hold; the cache is only ever changed by deleting the requested key, and
only when the secret equals the salt and both `mal_id` and `episode` are
positive integers; with a correct secret but invalid ids the response is
400 and the cache is unchanged. -/
theorem invalidate_route_auth (salt : String) (req : Option InvalidateBody)
    (cache : List (Int × Int)) :
    (∀ b, req = some b → b.secret ≠ some (JVal.jstr salt) →
      handleInvalidate salt req cache = ⟨401, false, cache⟩) ∧
    ((handleInvalidate salt req cache).cache ≠ cache →
      ∃ b m e, req = some b ∧ b.secret = some (JVal.jstr salt) ∧
        jsPosInt b.malId = some m ∧ jsPosInt b.episode = some e ∧ 0 < m ∧ 0 < e ∧
        (handleInvalidate salt req cache).cache = cache.filter (fun kv => ¬kv = (m, e))) ∧
    (∀ b, req = some b → b.secret = some (JVal.jstr salt) →
      jsPosInt b.malId = none ∨ jsPosInt b.episode = none →
      handleInvalidate salt req cache = ⟨400, false, cache⟩) := by
  rcases req with _ | b
  · refine ⟨fun b h => absurd h (by simp), fun h => absurd rfl h, fun b h => absurd h (by simp)⟩
  · by_cases hs : b.secret = some (JVal.jstr salt)
    · have hs' : ¬b.secret ≠ some (JVal.jstr salt) := fun h => h hs
      rcases hm : jsPosInt b.malId with _ | m
      · have hres : handleInvalidate salt (some b) cache = ⟨400, false, cache⟩ := by
          simp only [handleInvalidate]
          rw [if_neg hs', hm]
        refine ⟨?_, ?_, ?_⟩
        · intro b' hb' hsec
          exact absurd (Option.some.inj hb' ▸ hs) hsec
        · intro hne
          rw [hres] at hne
          exact absurd rfl hne
        · intro b' hb' _ _
          exact hres
      · rcases he : jsPosInt b.episode with _ | e
        · have hres : handleInvalidate salt (some b) cache = ⟨400, false, cache⟩ := by
            simp only [handleInvalidate]
            rw [if_neg hs', hm, he]
          refine ⟨?_, ?_, ?_⟩
          · intro b' hb' hsec
            exact absurd (Option.some.inj hb' ▸ hs) hsec
          · intro hne
            rw [hres] at hne
            exact absurd rfl hne
          · intro b' hb' _ _
            exact hres
        · have hres : handleInvalidate salt (some b) cache =
              ⟨200, true, cache.filter fun kv => ¬kv = (m, e)⟩ := by
            simp only [handleInvalidate]
            rw [if_neg hs', hm, he]
          refine ⟨?_, ?_, ?_⟩
          · intro b' hb' hsec
            exact absurd (Option.some.inj hb' ▸ hs) hsec
          · intro _
            exact ⟨b, m, e, rfl, hs, hm, he, jsPosInt_pos hm, jsPosInt_pos he,
              by rw [hres]⟩
          · intro b' hb' _ hor
            have hb : b' = b := (Option.some.inj hb').symm
            subst hb
            rcases hor with h | h
            · rw [hm] at h; exact absurd h (by simp)
            · rw [he] at h; exact absurd h (by simp)
    · have hres : handleInvalidate salt (some b) cache = ⟨401, false, cache⟩ := by
        simp only [handleInvalidate]
        rw [if_pos hs]
      refine ⟨?_, ?_, ?_⟩
      · intro b' hb' _
        exact hres
      · intro hne
        rw [hres] at hne
        exact absurd rfl hne
      · intro b' hb' hsec _
        exact absurd (Option.some.inj hb' ▸ hsec) hs

/-- Witness for `invalidate_route_auth`: a wrong secret gets 401 and keeps
the cache; a correct secret with a non-integer `mal_id` gets 400 and keeps
the cache. -/
theorem invalidate_route_auth_witness :
    handleInvalidate "s" (some ⟨some (JVal.jnum 1), some (JVal.jnum 2),
        some (JVal.jstr "wrong")⟩) [(1, 2)] = ⟨401, false, [(1, 2)]⟩ ∧
    handleInvalidate "s" (some ⟨some (JVal.jnum 0), some (JVal.jnum 2),
        some (JVal.jstr "s")⟩) [(1, 2)] = ⟨400, false, [(1, 2)]⟩ :=
  ⟨(invalidate_route_auth "s" _ [(1, 2)]).1 _ rfl (by decide),
   (invalidate_route_auth "s" _ [(1, 2)]).2.2 _ rfl (by decide) (Or.inl (by decide))⟩

end Weaboo
